import Mathlib

/-!
# Verification of the flow-mcp-poc resumable HTTP transport

Shallow embedding of the session/event-store/router layer of the
`flow-mcp-poc` server (`src/http-server.ts` and `src/flow-client.ts`),
with proofs of the spec's testable properties.

Conventions:
* JS `Map` objects are modelled as association lists in key-insertion
  order, which is exactly the iteration order of a JS `Map`.
* `async` functions whose awaited calls cannot interleave with their own
  state updates are modelled as pure state-passing functions.
* JSON-RPC message payloads are opaque to the pieces verified here and
  are modelled as `String`.
-/

namespace FlowMcp

/-! ## InMemoryEventStore (src/http-server.ts)

`events: Map<string, Array<{id, message, timestamp}>>` together with a
numeric `eventIdCounter`.  Event ids are the strings `event-${n}`. -/

structure StoredEvent where
  id : String
  message : String
  timestamp : Nat
  deriving Repr, DecidableEq

structure EventStore where
  events : List (String × List StoredEvent)
  eventIdCounter : Nat
  deriving Repr, DecidableEq

def EventStore.empty : EventStore := ⟨[], 0⟩

/-- The id string minted for counter value `n`: `event-${n}`. -/
def eventIdOf (n : Nat) : String := "event-" ++ Nat.repr n

/-- `this.events.has(streamId)`. -/
def hasStream (s : EventStore) (streamId : String) : Bool :=
  s.events.any (fun p => p.1 = streamId)

/-- `storeEvent(streamId, message)`: mints `event-${++counter}`, appends the
event to the stream's array (creating the stream at the end of the map's
iteration order when absent), and returns the fresh id. -/
def storeEvent (s : EventStore) (streamId message : String) (now : Nat) :
    String × EventStore :=
  let counter := s.eventIdCounter + 1
  let eid := eventIdOf counter
  let evs :=
    if hasStream s streamId then
      s.events.map
        (fun p => if p.1 = streamId then (p.1, p.2 ++ [⟨eid, message, now⟩]) else p)
    else
      s.events ++ [(streamId, [⟨eid, message, now⟩])]
  (eid, ⟨evs, counter⟩)

/-- A sequence of `storeEvent` calls: returns the list of minted ids in call
order and the final store.  Each call is `(streamId, message, timestamp)`. -/
def runStores (s : EventStore) : List (String × String × Nat) → List String × EventStore
  | [] => ([], s)
  | c :: rest =>
    let r := storeEvent s c.1 c.2.1 c.2.2
    let r2 := runStores r.2 rest
    (r.1 :: r2.1, r2.2)

/-- Inner loop of `replayEventsAfter` over one stream's event array.
State: `found` is `foundStartPoint`, `cur` is the `streamId` local.
Returns the `(eventId, message)` pairs passed to `send`, in order, and the
updated state. -/
def replayInStream (lastEventId sid : String) :
    List StoredEvent → Bool → String → List (String × String) × Bool × String
  | [], found, cur => ([], found, cur)
  | e :: rest, found, cur =>
    if found then
      let r := replayInStream lastEventId sid rest true cur
      ((e.id, e.message) :: r.1, r.2)
    else if e.id = lastEventId then
      replayInStream lastEventId sid rest true sid
    else
      replayInStream lastEventId sid rest false cur

/-- Outer loop of `replayEventsAfter` over `this.events.entries()`. -/
def replayStreams (lastEventId : String) :
    List (String × List StoredEvent) → Bool → String → List (String × String) × Bool × String
  | [], found, cur => ([], found, cur)
  | (sid, evs) :: rest, found, cur =>
    let r1 := replayInStream lastEventId sid evs found cur
    let r2 := replayStreams lastEventId rest r1.2.1 r1.2.2
    (r1.1 ++ r2.1, r2.2)

/-- `replayEventsAfter(lastEventId, {send})`: returns the list of
`(eventId, message)` pairs `send` is invoked on, in order, and the returned
stream id (`''` when the start point is never found). -/
def replayEventsAfter (s : EventStore) (lastEventId : String) :
    List (String × String) × String :=
  let r := replayStreams lastEventId s.events false ""
  (r.1, r.2.2)

/-- `clearSession(sessionId)`: `this.events.delete(sessionId)`. -/
def clearSession (s : EventStore) (sessionId : String) : EventStore :=
  { s with events := s.events.filter (fun p => p.1 ≠ sessionId) }

/-- The `(eventId, message)` pairs of every event of every stream of a map
fragment, in iteration order. -/
def sentAll (streams : List (String × List StoredEvent)) : List (String × String) :=
  streams.flatMap (fun p => p.2.map (fun e => (e.id, e.message)))

/-- A two-stream store built by two `storeEvent` calls: stream `A` holds
`event-1`, stream `B` holds `event-2`. -/
def exampleStoreAB : EventStore :=
  (storeEvent (storeEvent EventStore.empty "A" "m1" 0).2 "B" "m2" 1).2

/-! ## Decimal representation of `Nat`

`Nat.repr` through a fuel-free recursion, to prove event ids distinct. -/

/-- Fuel-free form of the digit list produced by `Nat.toDigitsCore 10`. -/
def natDigits (n : Nat) : List Char :=
  if h : n / 10 = 0 then [Nat.digitChar (n % 10)]
  else natDigits (n / 10) ++ [Nat.digitChar (n % 10)]
decreasing_by
  exact Nat.div_lt_self (Nat.pos_of_ne_zero (fun h0 => h (by simp [h0]))) (by norm_num)


/-! ## FlowMCPHttpServer request routing (src/http-server.ts)

The router state: `transports` (session ids with a registered live
transport, in registration order), the event store, and the forwarded
header bookkeeping of the extended variant (`requestHeaders` map and the
`currentRequestHeaders` instance field). -/

/-- A Node HTTP header value: a single string or an array of strings. -/
inductive HeaderValue where
  | str (s : String)
  | strs (l : List String)
  deriving Repr, DecidableEq

/-- JS `String.prototype.toLowerCase` on an ASCII character. -/
def lowerChar (c : Char) : Char :=
  if 'A' ≤ c ∧ c ≤ 'Z' then Char.ofNat (c.toNat + 32) else c

/-- JS `key.toLowerCase()` (header names are ASCII). -/
def lowerStr (s : String) : String := ⟨s.data.map lowerChar⟩

/-- JS `s.startsWith(p)`. -/
def strHasPrefixStr (s p : String) : Bool := s.data.take p.data.length = p.data

/-- The `excludedHeaders` set of `handleMcpPost`. -/
def excludedHeaders : List String :=
  ["host", "content-length", "content-type", "connection", "transfer-encoding",
   "te", "trailer", "proxy-authorization", "proxy-authenticate", "upgrade", "expect"]

/-- The `forwardHeaders` computation of `handleMcpPost`: keep a header iff its
value is a single string, its lower-cased name does not start with `mcp-`,
and its lower-cased name is not in `excludedHeaders`. -/
def computeForwardHeaders (headers : List (String × HeaderValue)) :
    List (String × String) :=
  headers.filterMap (fun kv =>
    match kv.2 with
    | .str v =>
      if ¬ (strHasPrefixStr (lowerStr kv.1) "mcp-" = true) ∧ lowerStr kv.1 ∉ excludedHeaders then
        some (kv.1, v)
      else none
    | .strs _ => none)

/-- JS `Map.set`: update in place when the key exists, else append. -/
def mapSet {α : Type} (m : List (String × α)) (k : String) (v : α) :
    List (String × α) :=
  if m.any (fun p => p.1 = k) then
    m.map (fun p => if p.1 = k then (k, v) else p)
  else m ++ [(k, v)]

structure ServerState where
  transports : List String
  eventStore : EventStore
  requestHeaders : List (String × List (String × String))
  currentRequestHeaders : List (String × String)
  deriving Repr, DecidableEq

def ServerState.initial : ServerState := ⟨[], EventStore.empty, [], []⟩

/-- A POST body/headers as consumed by `handleMcpPost`: the
`mcp-session-id` header (absent → `none`), whether
`isInitializeRequest(req.body)` holds, and the raw header map. -/
structure PostRequest where
  sessionId : Option String
  isInit : Bool
  headers : List (String × HeaderValue)
  deriving Repr, DecidableEq

/-- A GET/DELETE request as consumed by `handleMcpGet`/`handleMcpDelete`:
only the `mcp-session-id` header is inspected (`last-event-id` is only
logged on GET and forwarded opaquely to the transport). -/
structure SessionRequest where
  sessionId : Option String
  deriving Repr, DecidableEq

/-- JS truthiness of the session header value: `undefined` and `''` are
falsy. -/
def truthy : Option String → Bool
  | none => false
  | some s => s ≠ ""

inductive HttpResponse where
  /-- `res.status(status).json({jsonrpc, error: {code, message}, id: null})`. -/
  | jsonRpcError (status : Nat) (code : Int) (message : String)
  /-- `res.status(status).send(body)`: a plain-text body. -/
  | text (status : Nat) (body : String)
  /-- Delegated to `transport.handleRequest` of a registered session. -/
  | handled (sessionId : String)
  /-- Initialization delegated to a freshly created transport; the SDK
  transport announces the new session id on the response header. -/
  | initialized (newSessionId : String)
  deriving Repr, DecidableEq

/-- `handleMcpPost`.  `newSid` stands for the `randomUUID()` the transport's
`sessionIdGenerator` would mint; `onsessioninitialized` registers it in
`transports` and stores the forwarded headers. -/
def handleMcpPost (st : ServerState) (req : PostRequest) (newSid : String) :
    HttpResponse × ServerState :=
  let sidVal := req.sessionId.getD ""
  let fh := computeForwardHeaders req.headers
  if truthy req.sessionId && st.transports.contains sidVal then
    (.handled sidVal,
     { st with requestHeaders := mapSet st.requestHeaders sidVal fh,
               currentRequestHeaders := fh })
  else if !truthy req.sessionId && req.isInit then
    (.initialized newSid,
     { st with transports := st.transports ++ [newSid],
               requestHeaders := mapSet st.requestHeaders newSid fh,
               currentRequestHeaders := fh })
  else
    (.jsonRpcError 400 (-32000) "Bad Request: No valid session ID provided", st)

/-- `handleMcpGet`: rejects a missing/unknown session with a plain-text 400,
otherwise delegates to the session's transport.  No state is written. -/
def handleMcpGet (st : ServerState) (req : SessionRequest) : HttpResponse :=
  let sidVal := req.sessionId.getD ""
  if !truthy req.sessionId || !st.transports.contains sidVal then
    .text 400 "Invalid or missing session ID"
  else
    .handled sidVal

/-- `handleMcpDelete`: same precondition check as `handleMcpGet`. -/
def handleMcpDelete (st : ServerState) (req : SessionRequest) : HttpResponse :=
  let sidVal := req.sessionId.getD ""
  if !truthy req.sessionId || !st.transports.contains sidVal then
    .text 400 "Invalid or missing session ID"
  else
    .handled sidVal

/-- Is the response a structured JSON-RPC error envelope carrying a negative
error code? -/
def isStructuredError : HttpResponse → Bool
  | .jsonRpcError _ code _ => code < 0
  | _ => false

/-! ## Tool handlers (src/http-server.ts, `setupToolHandlers`)

A tool handler body is `try { r = await this.flowClient.f(...); return
okEnvelope(r) } catch (e) { return errorEnvelope(e) }`.  The downstream
call's outcome is `Except String String`: `.error msg` models the client
throwing an `Error` with that message, `.ok json` the serialized success
payload. -/

structure ToolContent where
  type : String
  text : String
  deriving Repr, DecidableEq

/-- The result envelope returned to the MCP layer; `isError` is absent
(modelled `false`) on success. -/
structure ToolResponse where
  content : List ToolContent
  isError : Bool
  deriving Repr, DecidableEq

/-- The `start_flow` tool handler at the dispatch boundary.  The outer
`Except` is the handler's own exception channel: `.error` would mean the
handler itself threw (a protocol-level failure).  The `catch` arm converts
every downstream failure into a normal return. -/
def startFlowTool (callResult : Except String String) : Except String ToolResponse :=
  match callResult with
  | .ok startResult => .ok ⟨[⟨"text", startResult⟩], false⟩
  | .error e => .ok ⟨[⟨"text", "Error: " ++ e⟩], true⟩

/-! ## FlowApiClient (src/flow-client.ts) -/

/-- `FlowApiConfig`: `timeout?: number` — absent modelled as `none`. -/
structure FlowApiConfig where
  baseUrl : String
  timeout : Option Int
  deriving Repr, DecidableEq

/-- `config.baseUrl.replace(/\x2f$/, "")`: strip one trailing slash. -/
def stripTrailingSlash (s : String) : String :=
  if s.endsWith "/" then s.dropRight 1 else s

/-- JS `v || d` for an optional number: `undefined` and `0` are falsy. -/
def jsOrInt : Option Int → Int → Int
  | none, d => d
  | some t, d => if t = 0 then d else t

structure FlowApiClient where
  baseUrl : String
  timeout : Int
  deriving Repr, DecidableEq

/-- The `FlowApiClient` constructor. -/
def FlowApiClient.make (config : FlowApiConfig) : FlowApiClient :=
  ⟨stripTrailingSlash config.baseUrl, jsOrInt config.timeout 30000⟩

/-! ## Helper lemmas -/

theorem natDigits_last (n : Nat) (h : n / 10 = 0) :
    natDigits n = [Nat.digitChar (n % 10)] := by
  rw [natDigits]
  exact dif_pos h

theorem natDigits_step (n : Nat) (h : ¬ n / 10 = 0) :
    natDigits n = natDigits (n / 10) ++ [Nat.digitChar (n % 10)] := by
  rw [natDigits]
  exact dif_neg h

theorem natDigits_ne_nil (n : Nat) : natDigits n ≠ [] := by
  by_cases h : n / 10 = 0
  · rw [natDigits_last n h]; simp
  · rw [natDigits_step n h]; simp

theorem toDigitsCore_eq_natDigits (fuel : Nat) :
    ∀ n ds, n < fuel → Nat.toDigitsCore 10 fuel n ds = natDigits n ++ ds := by
  induction fuel with
  | zero => intro n ds h; omega
  | succ f ih =>
    intro n ds h
    simp only [Nat.toDigitsCore]
    by_cases h10 : n / 10 = 0
    · rw [if_pos h10, natDigits_last n h10]
      simp
    · rw [if_neg h10]
      have hn : 0 < n := Nat.pos_of_ne_zero (fun h0 => h10 (by simp [h0]))
      have hlt : n / 10 < f :=
        Nat.lt_of_lt_of_le (Nat.div_lt_self hn (by norm_num)) (Nat.le_of_lt_succ h)
      rw [ih (n / 10) _ hlt, natDigits_step n h10]
      simp

theorem repr_eq_natDigits (n : Nat) : Nat.repr n = (natDigits n).asString := by
  show (Nat.toDigits 10 n).asString = (natDigits n).asString
  rw [Nat.toDigits, toDigitsCore_eq_natDigits (n + 1) n [] (Nat.lt_succ_self n)]
  simp

theorem digitChar_inj_lt : ∀ a < 10, ∀ b < 10, Nat.digitChar a = Nat.digitChar b → a = b := by
  decide

theorem natDigits_inj : ∀ n m : Nat, natDigits n = natDigits m → n = m := by
  intro n
  induction n using Nat.strong_induction_on with
  | _ n ih =>
    intro m h
    by_cases hn : n / 10 = 0 <;> by_cases hm : m / 10 = 0
    · rw [natDigits_last n hn, natDigits_last m hm] at h
      have hmod := digitChar_inj_lt (n % 10) (Nat.mod_lt n (by norm_num)) (m % 10)
        (Nat.mod_lt m (by norm_num)) (List.head_eq_of_cons_eq h)
      omega
    · rw [natDigits_last n hn, natDigits_step m hm] at h
      have hlen := congrArg List.length h
      have hpos := List.length_pos.mpr (natDigits_ne_nil (m / 10))
      simp only [List.length_cons, List.length_append, List.length_nil] at hlen
      omega
    · rw [natDigits_step n hn, natDigits_last m hm] at h
      have hlen := congrArg List.length h
      have hpos := List.length_pos.mpr (natDigits_ne_nil (n / 10))
      simp only [List.length_cons, List.length_append, List.length_nil] at hlen
      omega
    · rw [natDigits_step n hn, natDigits_step m hm] at h
      have := List.append_inj' h (by simp)
      obtain ⟨hdig, hlast⟩ := this
      have hdiv : n / 10 = m / 10 := by
        have hnpos : 0 < n := Nat.pos_of_ne_zero (fun h0 => hn (by simp [h0]))
        exact ih (n / 10) (Nat.div_lt_self hnpos (by norm_num)) (m / 10) hdig
      have hmod := digitChar_inj_lt (n % 10) (Nat.mod_lt n (by norm_num)) (m % 10)
        (Nat.mod_lt m (by norm_num)) (List.head_eq_of_cons_eq hlast)
      omega

theorem repr_inj : ∀ n m : Nat, Nat.repr n = Nat.repr m → n = m := by
  intro n m h
  rw [repr_eq_natDigits, repr_eq_natDigits] at h
  exact natDigits_inj n m (congrArg String.data h)

theorem eventIdOf_inj : ∀ n m : Nat, eventIdOf n = eventIdOf m → n = m := by
  intro n m h
  apply repr_inj
  have hd : ("event-" ++ Nat.repr n).data = ("event-" ++ Nat.repr m).data :=
    congrArg String.data h
  rw [String.data_append, String.data_append] at hd
  have := List.append_cancel_left hd
  exact String.ext this


theorem replayInStream_found (lid sid : String) (evs : List StoredEvent) (cur : String) :
    replayInStream lid sid evs true cur =
      (evs.map (fun e => (e.id, e.message)), true, cur) := by
  induction evs with
  | nil => rfl
  | cons e rest ih => simp [replayInStream, ih]

theorem replayInStream_none (lid sid : String) (evs : List StoredEvent) (cur : String)
    (h : ∀ e ∈ evs, e.id ≠ lid) :
    replayInStream lid sid evs false cur = ([], false, cur) := by
  induction evs with
  | nil => rfl
  | cons e rest ih =>
    have he : e.id ≠ lid := h e (by simp)
    simp only [replayInStream, Bool.false_eq_true, if_false, if_neg he]
    exact ih (fun x hx => h x (by simp [hx]))

theorem replayInStream_found_at (lid sid : String) (l1 l2 : List StoredEvent)
    (ek : StoredEvent) (cur : String)
    (h1 : ∀ e ∈ l1, e.id ≠ lid) (hek : ek.id = lid) :
    replayInStream lid sid (l1 ++ ek :: l2) false cur =
      (l2.map (fun e => (e.id, e.message)), true, sid) := by
  induction l1 with
  | nil =>
    simp only [List.nil_append, replayInStream, Bool.false_eq_true, if_false, if_pos hek]
    exact replayInStream_found lid sid l2 sid
  | cons e rest ih =>
    have he : e.id ≠ lid := h1 e (by simp)
    simp only [List.cons_append, replayInStream, Bool.false_eq_true, if_false, if_neg he]
    exact ih (fun x hx => h1 x (by simp [hx]))

theorem replayStreams_found (lid : String) (streams : List (String × List StoredEvent))
    (cur : String) :
    replayStreams lid streams true cur = (sentAll streams, true, cur) := by
  induction streams generalizing cur with
  | nil => simp [replayStreams, sentAll]
  | cons p rest ih =>
    obtain ⟨sid, evs⟩ := p
    simp [replayStreams, replayInStream_found, ih, sentAll]

theorem replayStreams_none (lid : String) (streams : List (String × List StoredEvent))
    (cur : String) (h : ∀ p ∈ streams, ∀ e ∈ p.2, e.id ≠ lid) :
    replayStreams lid streams false cur = ([], false, cur) := by
  induction streams with
  | nil => rfl
  | cons p rest ih =>
    obtain ⟨sid, evs⟩ := p
    simp only [replayStreams,
      replayInStream_none lid sid evs cur (fun e he => h (sid, evs) (by simp) e he)]
    simpa using ih (fun q hq e he => h q (by simp [hq]) e he)

theorem replayStreams_append (lid : String) (a b : List (String × List StoredEvent))
    (f : Bool) (cur : String) :
    replayStreams lid (a ++ b) f cur =
      ((replayStreams lid a f cur).1 ++
        (replayStreams lid b (replayStreams lid a f cur).2.1
          (replayStreams lid a f cur).2.2).1,
       (replayStreams lid b (replayStreams lid a f cur).2.1
          (replayStreams lid a f cur).2.2).2) := by
  induction a generalizing f cur with
  | nil => simp [replayStreams]
  | cons p rest ih =>
    obtain ⟨sid, evs⟩ := p
    simp only [List.cons_append, replayStreams, List.append_eq]
    rw [ih]
    simp [List.append_assoc]


/-! ## Claim theorems -/

theorem runStores_ids (s : EventStore) (calls : List (String × String × Nat)) :
    (runStores s calls).1 =
      (List.range calls.length).map (fun i => eventIdOf (s.eventIdCounter + i + 1)) := by
  induction calls generalizing s with
  | nil => simp [runStores]
  | cons c rest ih =>
    have h1 : (storeEvent s c.1 c.2.1 c.2.2).1 = eventIdOf (s.eventIdCounter + 1) := rfl
    have h2 : (storeEvent s c.1 c.2.1 c.2.2).2.eventIdCounter = s.eventIdCounter + 1 := rfl
    simp only [runStores, List.length_cons, List.range_succ_eq_map, List.map_cons,
      List.map_map, h1]
    rw [ih, h2]
    have harr : ∀ i : Nat,
        s.eventIdCounter + 1 + i + 1 = s.eventIdCounter + (i + 1) + 1 :=
      fun i => by omega
    simp [Function.comp_def, harr]

/-- C1 counterexample: in a store where stream `A` holds only `event-1` and
stream `B` holds `event-2`, replaying after `event-1` — the last event of
stream `A` — invokes the sink on `event-2`, an event of the other stream,
instead of invoking it on nothing. -/
theorem c1_counterexample :
    exampleStoreAB.events =
      [("A", [⟨"event-1", "m1", 0⟩]), ("B", [⟨"event-2", "m2", 1⟩])] ∧
    replayEventsAfter exampleStoreAB "event-1" = ([("event-2", "m2")], "A") := by
  constructor <;> decide

/-- C1 (amended): when `lastEventId` matches event `ek` of stream `sid`
(with no earlier event of any stream carrying that id), `replayEventsAfter`
invokes the sink on the remainder of that stream in order, followed by every
event of every stream that comes after `sid` in the store's iteration
order, and returns `sid`.  The replay is confined to the matched stream
only when that stream is the last one; with `l2 = []` and no later streams
it yields nothing. -/
theorem c1_replay_scope (pre post : List (String × List StoredEvent))
    (sid : String) (l1 l2 : List StoredEvent) (ek : StoredEvent) (c : Nat)
    (hpre : ∀ p ∈ pre, ∀ e ∈ p.2, e.id ≠ ek.id)
    (hl1 : ∀ e ∈ l1, e.id ≠ ek.id) :
    replayEventsAfter ⟨pre ++ (sid, l1 ++ ek :: l2) :: post, c⟩ ek.id =
      (l2.map (fun e => (e.id, e.message)) ++ sentAll post, sid) := by
  simp only [replayEventsAfter]
  rw [replayStreams_append, replayStreams_none ek.id pre "" hpre]
  simp only [replayStreams, replayInStream_found_at ek.id sid l1 l2 ek "" hl1 rfl,
    replayStreams_found]
  simp

theorem c1_witness :
    replayEventsAfter
      ⟨[("A", [⟨"event-1", "m1", 0⟩]), ("B", [⟨"event-2", "m2", 1⟩])], 2⟩
      "event-1" = ([("event-2", "m2")], "A") := by
  simpa using c1_replay_scope [] [("B", [⟨"event-2", "m2", 1⟩])] "A" [] []
    ⟨"event-1", "m1", 0⟩ 2 (by simp) (by simp)

/-- C2 counterexample: the 9th and 10th `storeEvent` calls return
`event-9` and `event-10`, and `event-9` does not sort lexicographically
before `event-10` (the digit `9` compares above `1`). -/
theorem c2_counterexample :
    (runStores EventStore.empty (List.replicate 10 ("S", "m", 0))).1.get? 8 =
      some "event-9" ∧
    (runStores EventStore.empty (List.replicate 10 ("S", "m", 0))).1.get? 9 =
      some "event-10" ∧
    ¬ (("event-9" : String) < "event-10") := by
  refine ⟨by decide, by decide, ?_⟩
  rw [String.lt_iff_toList_lt]
  decide

/-- C2 (amended): the ids returned by any sequence of `storeEvent` calls are
exactly `event-${c+1} ... event-${c+n}` for the store's starting counter
`c`, hence pairwise distinct and strictly increasing in the numeric counter
(call order); lexicographic string order however does not always agree with
call order. -/
theorem c2_ids_distinct (s : EventStore) (calls : List (String × String × Nat)) :
    (runStores s calls).1 =
      (List.range calls.length).map (fun i => eventIdOf (s.eventIdCounter + i + 1)) ∧
    (runStores s calls).1.Nodup := by
  refine ⟨runStores_ids s calls, ?_⟩
  rw [runStores_ids s calls]
  refine List.Nodup.map ?_ (List.nodup_range _)
  intro a b hab
  have := eventIdOf_inj _ _ hab
  omega

/-- C3: a POST whose session header is absent and whose body is not an
initialization call is answered with the 400 / code -32000 validation error
and the server state — transports map, event store, header caches — is
returned unchanged. -/
theorem c3_post_reject_no_side_effects (st : ServerState) (req : PostRequest)
    (newSid : String) (habs : req.sessionId = none) (hinit : req.isInit = false) :
    handleMcpPost st req newSid =
      (.jsonRpcError 400 (-32000) "Bad Request: No valid session ID provided", st) := by
  simp [handleMcpPost, habs, hinit, truthy]

theorem c3_witness :
    handleMcpPost ServerState.initial ⟨none, false, []⟩ "fresh" =
      (.jsonRpcError 400 (-32000) "Bad Request: No valid session ID provided",
       ServerState.initial) :=
  c3_post_reject_no_side_effects ServerState.initial ⟨none, false, []⟩ "fresh" rfl rfl

/-- C4 counterexample: a GET with no session header is rejected with a
plain-text 400 body, not a structured protocol-level error response
carrying a negative error code. -/
theorem c4_counterexample :
    handleMcpGet ServerState.initial ⟨none⟩ =
      .text 400 "Invalid or missing session ID" ∧
    isStructuredError (handleMcpGet ServerState.initial ⟨none⟩) = false := by
  constructor <;> decide

/-- C4 (amended): a POST rejection for a missing-or-unresolvable session is
a structured JSON-RPC error with the fixed code -32000 and leaves the state
unchanged, while GET and DELETE rejections are plain-text 400 responses
with no protocol error code; all three handlers are total functions, so the
rejection path never throws. -/
theorem c4_rejection_shapes (st : ServerState) (preq : PostRequest)
    (sreq : SessionRequest) (newSid : String)
    (hpost1 : truthy preq.sessionId = false → preq.isInit = false)
    (hpost2 : truthy preq.sessionId = true →
      st.transports.contains (preq.sessionId.getD "") = false)
    (hs : truthy sreq.sessionId = false ∨
      st.transports.contains (sreq.sessionId.getD "") = false) :
    handleMcpPost st preq newSid =
      (.jsonRpcError 400 (-32000) "Bad Request: No valid session ID provided", st) ∧
    handleMcpGet st sreq = .text 400 "Invalid or missing session ID" ∧
    handleMcpDelete st sreq = .text 400 "Invalid or missing session ID" := by
  refine ⟨?_, ?_, ?_⟩
  · cases htr : truthy preq.sessionId
    · simp [handleMcpPost, htr, hpost1 htr]
    · have hc : preq.sessionId.getD "" ∉ st.transports := by simpa using hpost2 htr
      simp [handleMcpPost, htr, hc]
  · rcases hs with h | h
    · simp [handleMcpGet, h]
    · have hc : sreq.sessionId.getD "" ∉ st.transports := by simpa using h
      simp [handleMcpGet, hc]
  · rcases hs with h | h
    · simp [handleMcpDelete, h]
    · have hc : sreq.sessionId.getD "" ∉ st.transports := by simpa using h
      simp [handleMcpDelete, hc]

theorem c4_witness :
    handleMcpPost ServerState.initial ⟨some "x", true, []⟩ "fresh" =
      (.jsonRpcError 400 (-32000) "Bad Request: No valid session ID provided",
       ServerState.initial) ∧
    handleMcpGet ServerState.initial ⟨none⟩ =
      .text 400 "Invalid or missing session ID" ∧
    handleMcpDelete ServerState.initial ⟨none⟩ =
      .text 400 "Invalid or missing session ID" :=
  c4_rejection_shapes ServerState.initial ⟨some "x", true, []⟩ ⟨none⟩ "fresh"
    (by decide) (by decide) (Or.inl (by decide))

/-- C5 counterexample: the resume hint header `last-event-id` and a
`proxy-*` header other than the two authentication ones pass the filter and
appear in the forwarded copy. -/
theorem c5_counterexample :
    computeForwardHeaders
      [("last-event-id", .str "event-1"), ("Proxy-Connection", .str "keep-alive")] =
      [("last-event-id", "event-1"), ("Proxy-Connection", "keep-alive")] := by
  decide

/-- C5 (amended): every header in the forwarded copy has a single string
value taken from the inbound request, its lower-cased name is outside the
fixed excluded set (host, content-length, content-type, connection,
transfer-encoding, te, trailer, proxy-authorization, proxy-authenticate,
upgrade, expect), and it does not start with `mcp-` (which covers the
session-id header); `last-event-id` and other `proxy-*` headers are not
excluded. -/
theorem c5_forward_filter (hs : List (String × HeaderValue)) (k v : String)
    (hmem : (k, v) ∈ computeForwardHeaders hs) :
    strHasPrefixStr (lowerStr k) "mcp-" = false ∧
    lowerStr k ∉ excludedHeaders ∧
    (k, HeaderValue.str v) ∈ hs := by
  simp only [computeForwardHeaders, List.mem_filterMap] at hmem
  obtain ⟨⟨k0, hv⟩, hkv, heq⟩ := hmem
  cases hv with
  | str v0 =>
    simp only at heq
    by_cases hc : ¬ (strHasPrefixStr (lowerStr k0) "mcp-" = true) ∧
        lowerStr k0 ∉ excludedHeaders
    · rw [if_pos hc] at heq
      simp only [Option.some.injEq, Prod.mk.injEq] at heq
      obtain ⟨hk, hv0⟩ := heq
      subst hk
      subst hv0
      exact ⟨by simpa using hc.1, hc.2, hkv⟩
    · rw [if_neg hc] at heq
      exact absurd heq (by simp)
  | strs l => simp at heq

theorem c5_witness :
    strHasPrefixStr (lowerStr "authorization") "mcp-" = false ∧
    lowerStr "authorization" ∉ excludedHeaders ∧
    ("authorization", HeaderValue.str "token") ∈
      ([("authorization", HeaderValue.str "token")] : List (String × HeaderValue)) :=
  c5_forward_filter [("authorization", HeaderValue.str "token")]
    "authorization" "token" (by decide)

/-- C6: when `lastEventId` equals no stored event id, `replayEventsAfter`
invokes the sink on no events at all. -/
theorem c6_replay_unknown_id (s : EventStore) (lid : String)
    (h : ∀ p ∈ s.events, ∀ e ∈ p.2, e.id ≠ lid) :
    (replayEventsAfter s lid).1 = [] := by
  simp [replayEventsAfter, replayStreams_none lid s.events "" h]

theorem c6_witness : (replayEventsAfter exampleStoreAB "nope").1 = [] :=
  c6_replay_unknown_id exampleStoreAB "nope" (by decide)

/-- C7: the `start_flow` tool handler never propagates a downstream failure
as a protocol-level failure: it always returns normally, and on a thrown
downstream error it returns the success envelope whose text payload carries
the error message and whose `isError` flag is set. -/
theorem c7_downstream_error_wrapped (r : Except String String) :
    (∃ resp, startFlowTool r = Except.ok resp) ∧
    (∀ e, r = Except.error e →
      startFlowTool r = Except.ok ⟨[⟨"text", "Error: " ++ e⟩], true⟩) := by
  cases r with
  | ok v =>
    exact ⟨⟨⟨[⟨"text", v⟩], false⟩, rfl⟩, fun e h => Except.noConfusion h⟩
  | error e0 =>
    refine ⟨⟨⟨[⟨"text", "Error: " ++ e0⟩], true⟩, rfl⟩, fun e h => ?_⟩
    cases h
    rfl

theorem c7_witness :
    startFlowTool (Except.error "boom") =
      Except.ok ⟨[⟨"text", "Error: " ++ "boom"⟩], true⟩ :=
  (c7_downstream_error_wrapped (Except.error "boom")).2 "boom" rfl

/-- C8: `clearSession` is idempotent — clearing twice equals clearing once —
and clearing an id that owns no events is a no-op (and, being a total
function, never raises). -/
theorem c8_clearSession_idempotent (s : EventStore) (sid : String) :
    clearSession (clearSession s sid) sid = clearSession s sid ∧
    ((∀ p ∈ s.events, p.1 ≠ sid) → clearSession s sid = s) := by
  constructor
  · simp [clearSession, List.filter_filter]
  · intro h
    simp only [clearSession]
    have hf : s.events.filter (fun p => decide (p.1 ≠ sid)) = s.events :=
      List.filter_eq_self.mpr (fun a ha => by simpa using h a ha)
    rw [hf]

theorem c8_witness :
    clearSession (clearSession exampleStoreAB "C") "C" =
      clearSession exampleStoreAB "C" ∧
    clearSession exampleStoreAB "C" = exampleStoreAB :=
  ⟨(c8_clearSession_idempotent exampleStoreAB "C").1,
   (c8_clearSession_idempotent exampleStoreAB "C").2 (by decide)⟩

/-- C9: `replayEventsAfter` returns the empty string when `lastEventId`
matches no stored event id, and returns the id of the stream holding the
matching event when it is found (the match being the first occurrence). -/
theorem c9_replay_returned_stream (s : EventStore) (lid : String) :
    ((∀ p ∈ s.events, ∀ e ∈ p.2, e.id ≠ lid) → (replayEventsAfter s lid).2 = "") ∧
    (∀ pre post sid l1 l2 ek,
      s.events = pre ++ (sid, l1 ++ ek :: l2) :: post →
      ek.id = lid →
      (∀ p ∈ pre, ∀ e ∈ p.2, e.id ≠ lid) →
      (∀ e ∈ l1, e.id ≠ lid) →
      (replayEventsAfter s lid).2 = sid) := by
  constructor
  · intro h
    simp [replayEventsAfter, replayStreams_none lid s.events "" h]
  · intro pre post sid l1 l2 ek hev hek hpre hl1
    subst hek
    simp only [replayEventsAfter, hev]
    rw [replayStreams_append, replayStreams_none ek.id pre "" hpre]
    simp only [replayStreams, replayInStream_found_at ek.id sid l1 l2 ek "" hl1 rfl,
      replayStreams_found]

theorem c9_witness :
    (replayEventsAfter exampleStoreAB "nope").2 = "" ∧
    (replayEventsAfter exampleStoreAB "event-2").2 = "B" :=
  ⟨(c9_replay_returned_stream exampleStoreAB "nope").1 (by decide),
   (c9_replay_returned_stream exampleStoreAB "event-2").2
     [("A", [⟨"event-1", "m1", 0⟩])] [] "B" [] [] ⟨"event-2", "m2", 1⟩
     (by decide) rfl (by decide) (by decide)⟩

/-- C10: the client's effective timeout is the configured value when it is
present and nonzero, and the default 30000 when the configuration omits it
or sets it to 0 — a configured 0 is silently replaced, never taken
literally. -/
theorem c10_timeout_default (cfg : FlowApiConfig) :
    (∀ t, cfg.timeout = some t → t ≠ 0 → (FlowApiClient.make cfg).timeout = t) ∧
    (cfg.timeout = none → (FlowApiClient.make cfg).timeout = 30000) ∧
    (cfg.timeout = some 0 → (FlowApiClient.make cfg).timeout = 30000) := by
  refine ⟨fun t ht hnz => ?_, fun h => ?_, fun h => ?_⟩ <;>
    simp [FlowApiClient.make, jsOrInt, *]

theorem c10_witness :
    (FlowApiClient.make ⟨"u", some 5⟩).timeout = 5 ∧
    (FlowApiClient.make ⟨"u", none⟩).timeout = 30000 ∧
    (FlowApiClient.make ⟨"u", some 0⟩).timeout = 30000 :=
  ⟨(c10_timeout_default ⟨"u", some 5⟩).1 5 rfl (by decide),
   (c10_timeout_default ⟨"u", none⟩).2.1 rfl,
   (c10_timeout_default ⟨"u", some 0⟩).2.2 rfl⟩

end FlowMcp
